import Mathlib

/-!
Verification of the `fenics_adjoint` annotation/compatibility shim.

Shallow embedding of:
  * `fenics_adjoint/projection.py` — the tape-annotated `project` operation;
  * `fenics_adjoint/types/compat.py` — the dual-backend compatibility layer
    (Firedrake branch and Dolfin branch).

External collaborators (the pyadjoint tape machinery and the two numerical
backends) are modelled explicitly; definitions whose doc comment starts with
`Modelled from the spec:` embed repository code that is not part of the two
source files above (the pyadjoint tape framework), following the
specification's description of its interface.
-/

namespace FenicsAdjoint

/-- The process-wide backend identity: exactly one of the two supported
numerical backends is active, selected once at load time. -/
inductive Backend where
  | firedrake
  | dolfin
deriving DecidableEq

/-! ## Tape machinery (pyadjoint), modelled from the spec -/

/-- An overloaded (tape-trackable) numeric object wrapping a raw backend
value (the raw value is abstracted as a `Nat` identifier). -/
structure OverloadedObj where
  raw : Nat
deriving DecidableEq

/-- Modelled from the spec: `create_overloaded_object(value)` wraps a raw
numeric value so it can participate in tape recording (pyadjoint
`overloaded_type`, not under the two source files). -/
def create_overloaded_object (v : Nat) : OverloadedObj :=
  ⟨v⟩

/-- A block variable: the tape-level handle registered as an operation's
declared output; it references the output wrapper. -/
structure BlockVariable where
  output : OverloadedObj
deriving DecidableEq

/-- Modelled from the spec: `output.block_variable` is the tape handle of the
wrapper, registered as the recorded operation's declared output. -/
def OverloadedObj.block_variable (o : OverloadedObj) : BlockVariable :=
  ⟨o⟩

/-- A recorded operation (a `ProjectBlock`): source expression, destination,
produced output wrapper, boundary conditions, remaining solve options, and
the list of declared outputs (filled in by `add_output`). -/
structure Block where
  src : Nat
  dst : Nat
  output : OverloadedObj
  bcs : List Nat
  solveOpts : List Nat
  outputs : List BlockVariable
deriving DecidableEq

/-- Modelled from the spec: `block.add_output(v)` registers `v` as one of the
block's declared outputs. -/
def Block.add_output (b : Block) (v : BlockVariable) : Block :=
  { b with outputs := b.outputs ++ [v] }

/-- The global recording context: the list of recorded operations (the tape)
together with the active/suspended flag. -/
structure GlobalState where
  tape : List Block
  suspended : Bool
deriving DecidableEq

/-- Modelled from the spec: `tape.add_block(block)` appends one recorded
operation to the active recording context. -/
def Tape.add_block (t : List Block) (b : Block) : List Block :=
  t ++ [b]

/-- The keyword arguments reaching `project`: the optional `annotate` flag,
the optional `bcs` list, the options recognized by the generic solve-block
record constructor, and any remaining options (payloads abstracted as
`Nat`s). -/
structure Kwargs where
  annotate : Option Bool
  bcs : Option (List Nat)
  solveOpts : List Nat
  rest : List Nat
deriving DecidableEq

/-- Modelled from the spec: `annotate_tape(kwargs)` reads and removes the
`annotate` option; if absent it defaults to recording being active unless the
global recording context is itself suspended. Returns the decision and the
kwargs with `annotate` removed. -/
def annotate_tape (kw : Kwargs) (s : GlobalState) : Bool × Kwargs :=
  (kw.annotate.getD (!s.suspended), { kw with annotate := none })

/-- Modelled from the spec: the scoped `stop_annotating()` context suspends
recording for the duration of the body and guarantees that the prior
recording state is restored on every exit path, normal return or error (the
body returns its result, possibly an error, together with the state). -/
def stop_annotating {α : Type} (body : GlobalState → Except String α × GlobalState)
    (s : GlobalState) : Except String α × GlobalState :=
  let saved := s.suspended
  let (r, s1) := body { s with suspended := true }
  (r, { s1 with suspended := saved })

/-- Modelled from the spec: `SolveBlock.pop_kwargs(kwargs)` splits out the
options recognized by the generic equation-solve record constructor,
removing them from the kwargs. -/
def SolveBlock.pop_kwargs (kw : Kwargs) : List Nat × Kwargs :=
  (kw.solveOpts, { kw with solveOpts := [] })

/-! ## `fenics_adjoint/projection.py` -/

/-- Embedding of `project` from `fenics_adjoint/projection.py`.  The native
backend projection is abstracted as `native` (its raw result, or the error it
raises); `a0`, `a1` are the two positional arguments.  Python's
`block.add_output` mutates the block object aliased in the tape, so the
recorded block carries the declared output; the model registers the output on
the block before appending it, which yields the same final tape. -/
def project (native : Except String Nat) (a0 a1 : Nat) (kwargs : Kwargs)
    (s : GlobalState) : Except String OverloadedObj × GlobalState :=
  let ann := annotate_tape kwargs s
  let annotate := ann.1
  let kwargs1 := ann.2
  let res := stop_annotating (fun s' => (native, s')) s
  match res.1 with
  | .error e => (.error e, res.2)
  | .ok raw =>
    let output := create_overloaded_object raw
    if annotate then
      let bcs := kwargs1.bcs.getD []
      let kwargs2 := { kwargs1 with bcs := none }
      let popped := SolveBlock.pop_kwargs kwargs2
      let block : Block :=
        { src := a0, dst := a1, output := output, bcs := bcs,
          solveOpts := popped.1, outputs := [] }
      let block := Block.add_output block output.block_variable
      (.ok output, { res.2 with tape := Tape.add_block res.2.tape block })
    else
      (.ok output, res.2)

/-! ## `fenics_adjoint/types/compat.py`: boundary conditions -/

/-- Argument-contract errors raised by `create_bc`. -/
inductive BcErr where
  | neitherGiven
  | bothGiven
deriving DecidableEq

/-- A boundary-condition object.  `id` is the object identity (allocation
number), `space` the function space of the bc, `value` the imposed value
(`none` models Python's `None`); `sub_domain`, `method` and `domain_args` are
the remaining constructor data carried by each backend's `DirichletBC`. -/
structure BC where
  id : Nat
  space : Nat
  value : Option Int
  sub_domain : Nat
  method : Nat
  domain_args : List Nat
deriving DecidableEq

/-- Python truthiness of an optional boolean: `None` and `False` are falsy. -/
def truthy : Option Bool → Bool
  | none => false
  | some b => b

/-- Firedrake branch of `create_bc`: after the two `None`-checks, a truthy
`homogenize` replaces the value by `0`; a fresh `DirichletBC` is constructed
from the bc's function space, the value, its sub-domain and method (the
constructor allocates a new object with identity `freshId`). -/
def create_bc_firedrake (freshId : Nat) (bc : BC) (value : Option Int)
    (homogenize : Option Bool) : Except BcErr BC :=
  if value = none ∧ homogenize = none then
    .error .neitherGiven
  else if value ≠ none ∧ homogenize ≠ none then
    .error .bothGiven
  else
    let value := if truthy homogenize then some 0 else value
    .ok ⟨freshId, bc.space, value, bc.sub_domain, bc.method, []⟩

/-- Dolfin branch of `create_bc`: same `None`-checks; a truthy `homogenize`
copy-constructs the bc (a new object with identity `freshId`) and homogenizes
it (the external `DirichletBC.homogenize()` zeroes its value); otherwise a
fresh `DirichletBC` is constructed from the bc's function space, the value
and the bc's `domain_args`. -/
def create_bc_dolfin (freshId : Nat) (bc : BC) (value : Option Int)
    (homogenize : Option Bool) : Except BcErr BC :=
  if value = none ∧ homogenize = none then
    .error .neitherGiven
  else if value ≠ none ∧ homogenize ≠ none then
    .error .bothGiven
  else if truthy homogenize then
    .ok ⟨freshId, bc.space, some 0, bc.sub_domain, bc.method, bc.domain_args⟩
  else
    .ok ⟨freshId, bc.space, value, 0, 0, bc.domain_args⟩

/-- Backend dispatch for `create_bc`. -/
def create_bc (b : Backend) (freshId : Nat) (bc : BC) (value : Option Int)
    (homogenize : Option Bool) : Except BcErr BC :=
  match b with
  | .firedrake => create_bc_firedrake freshId bc value homogenize
  | .dolfin => create_bc_dolfin freshId bc value homogenize

/-! ## `fenics_adjoint/types/compat.py`: functions, spaces, extraction -/

/-- Errors in the compatibility layer: Python `assert` failures versus errors
raised by the external backend. -/
inductive PErr where
  | assertionError
  | backendError (msg : String)
deriving DecidableEq

/-- A backend field/function: its function space (an identifier), its
coefficient data (`vector()`), and its sub-functions (`sub(i)`). -/
inductive Fn where
  | mk (space : Nat) (data : List Int) (subs : List Fn)

/-- The function space of a field. -/
def Fn.space : Fn → Nat
  | .mk s _ _ => s

/-- The coefficient vector of a field. -/
def Fn.data : Fn → List Int
  | .mk _ d _ => d

/-- `u.sub(i)`: the `i`-th sub-function; the external backend raises when the
index is out of range. -/
def Fn.sub : Fn → Nat → Option Fn
  | .mk _ _ subs, i => subs.get? i

/-- Apply `sub` along a list of indices, propagating the backend's
out-of-range error. -/
def subChain (u : Fn) : List Nat → Except PErr Fn
  | [] => .ok u
  | i :: is =>
    match u.sub i with
    | some r => subChain r is
    | none => .error (.backendError "sub index out of range")

/-- A Firedrake sub-space reference: a root space, or a sub-space keeping a
back-reference to its parent and the component index it is (`V.index` is
`None` on a root space). -/
inductive FdSpaceRef where
  | root (id : Nat)
  | sub (parent : FdSpaceRef) (index : Nat)
deriving DecidableEq

/-- Firedrake branch of `extract_subfunction`: `while V.index:` walks
`r = r.sub(V.index); V = V.parent`.  Python truthiness: the loop stops when
`V.index` is `None` (root) or `0`. -/
def extract_subfunction_firedrake (u : Fn) : FdSpaceRef → Except PErr Fn
  | .root _ => .ok u
  | .sub p i =>
    if i ≠ 0 then
      match u.sub i with
      | some r => extract_subfunction_firedrake r p
      | none => .error (.backendError "sub index out of range")
    else
      .ok u

/-- A Dolfin function space: its identity, its dimension (used by the
external `FunctionAssigner` compatibility check) and its component index
list (`V.component()`, empty on a root space). -/
structure DlSpace where
  id : Nat
  dim : Nat
  component : List Nat
deriving DecidableEq

/-- Dolfin branch of `extract_subfunction`: `for idx in V.component():
r = r.sub(int(idx))`. -/
def extract_subfunction_dolfin (u : Fn) (V : DlSpace) : Except PErr Fn :=
  subChain u V.component

/-- Firedrake branch of `extract_bc_subvector`: walk `bc._indices` by `sub`,
`assert Vtarget == r.function_space()`, return `r.vector()`. -/
def extract_bc_subvector_firedrake (value : Fn) (Vtarget : Nat)
    (bcIndices : List Nat) : Except PErr (List Int) :=
  match subChain value bcIndices with
  | .error e => .error e
  | .ok r =>
    if Vtarget = r.space then .ok r.data else .error .assertionError

/-- Model of the external Dolfin `FunctionAssigner(Vtarget, Vsource)`
constructor: it checks that the two spaces are compatible (modelled as equal
dimension), raising a backend error on mismatch; it does not require the
spaces to be equal (a collapsed space is compatible with, but distinct from,
the sub-space it collapses). -/
def FunctionAssigner_check (Vtarget Vsource : DlSpace) : Except PErr Unit :=
  if Vtarget.dim = Vsource.dim then .ok ()
  else .error (.backendError "FunctionAssigner: incompatible spaces")

/-- Dolfin branch of `extract_bc_subvector`: build a `FunctionAssigner` from
the target space and the bc's function space, assign the extracted
sub-function into a fresh function on `Vtarget`, and return its vector.  No
space-equality assertion is performed. -/
def extract_bc_subvector_dolfin (value : Fn) (Vtarget : DlSpace)
    (bcSpace : DlSpace) : Except PErr (List Int) :=
  match FunctionAssigner_check Vtarget bcSpace with
  | .error e => .error e
  | .ok _ =>
    match extract_subfunction_dolfin value bcSpace with
    | .error e => .error e
    | .ok r => .ok r.data

/-! ## `fenics_adjoint/types/compat.py`: assembly -/

/-- The possible results of the backends' `assemble`: a field (function), a
vector, a matrix, or a scalar.  `FunctionType` and `VectorType` are the
compatibility layer's type identity aliases. -/
inductive AsmResult where
  | function (data : List Int)
  | vector (data : List Int)
  | matrix (rows : List (List Int))
  | scalar (v : Int)
deriving DecidableEq

/-- Membership in the `FunctionType` type identity. -/
def isFunctionType : AsmResult → Bool
  | .function _ => true
  | _ => false

/-- Membership in the `VectorType` type identity. -/
def isVectorType : AsmResult → Bool
  | .vector _ => true
  | _ => false

/-- Firedrake branch of `assemble_adjoint_value`: call the native assemble
(its result is the argument `result`); if the result is a `Function`, return
`result.vector()`, otherwise return it unchanged. -/
def assemble_adjoint_value_firedrake (result : AsmResult) : AsmResult :=
  match result with
  | .function d => .vector d
  | r => r

/-- Model of the external Dolfin backend's `assemble` applied to a 1-form:
Dolfin assembly of a 1-form natively returns a `Vector` (the source comment:
Firedrake assembly returns `Function` whereas Dolfin returns `Vector`). -/
def dolfin_assemble_rank1 (data : List Int) : AsmResult :=
  .vector data

/-- Dolfin branch: `assemble_adjoint_value = backend.assemble`, here at a
1-form. -/
def assemble_adjoint_value_dolfin_rank1 (data : List Int) : AsmResult :=
  dolfin_assemble_rank1 data

/-! ## `fenics_adjoint/types/compat.py`: gather -/

/-- The Python values reaching `gather`: a Dolfin `cpp.Function` (whose
`.vector()` is a `GenericVector` holding its data), a Dolfin
`GenericVector`, a Python list, a plain (already gathered) numpy array, and
a Firedrake vector (an object providing a zero-argument `.gather()`
method). -/
inductive PyVal where
  | function (data : List Int)
  | genericVector (data : List Int)
  | pylist (xs : List PyVal)
  | array (data : List Int)
  | firedrakeVec (data : List Int)

mutual

/-- Dolfin branch of `gather`: a `cpp.Function` is replaced by its vector; a
`GenericVector` is gathered into a plain process-local array; a list is
gathered elementwise; anything else is assumed to be a gathered array
already and returned unchanged. -/
def gather_dolfin : PyVal → PyVal
  | .function d => .array d
  | .genericVector d => .array d
  | .pylist xs => .pylist (gather_dolfin_list xs)
  | .array d => .array d
  | .firedrakeVec d => .firedrakeVec d

/-- Elementwise gather over the elements of a Python list (`list(map(gather,
vec))`). -/
def gather_dolfin_list : List PyVal → List PyVal
  | [] => []
  | x :: xs => gather_dolfin x :: gather_dolfin_list xs

end

/-- Firedrake branch of `gather`: `return vec.gather()`.  Only a Firedrake
vector provides a zero-argument `gather` method; Python lists and plain
numpy arrays have no `gather` attribute, a Firedrake/Dolfin function has
none either, and a Dolfin `GenericVector.gather` requires arguments — on all
of these the call raises. -/
def gather_firedrake : PyVal → Except String PyVal
  | .firedrakeVec d => .ok (.array d)
  | _ => .error "AttributeError: no gather method"

/-- Backend dispatch for `gather`. -/
def gather (b : Backend) (v : PyVal) : Except String PyVal :=
  match b with
  | .firedrake => gather_firedrake v
  | .dolfin => .ok (gather_dolfin v)

/-! ## Theorems -/

/-- C1: for every call to `project` with recording enabled (the decision
computed by `annotate_tape` is true) whose native projection succeeds,
exactly one new recorded operation is appended to the active recording
context, and the output declared on that block is the same wrapper object
that `project` returns to the caller. -/
theorem project_records_one_block (raw a0 a1 : Nat) (kw : Kwargs)
    (s : GlobalState) (h : (annotate_tape kw s).1 = true) :
    ∃ out b,
      (project (Except.ok raw) a0 a1 kw s).1 = Except.ok out ∧
      (project (Except.ok raw) a0 a1 kw s).2.tape = s.tape ++ [b] ∧
      b.output = out ∧ b.outputs = [out.block_variable] := by
  have h' : kw.annotate.getD (!s.suspended) = true := by
    simpa [annotate_tape] using h
  refine ⟨create_overloaded_object raw,
    { src := a0, dst := a1, output := create_overloaded_object raw,
      bcs := kw.bcs.getD [], solveOpts := kw.solveOpts,
      outputs := [(create_overloaded_object raw).block_variable] },
    ?_, ?_, rfl, rfl⟩ <;>
    simp [project, stop_annotating, annotate_tape, SolveBlock.pop_kwargs,
      Tape.add_block, Block.add_output, h']

theorem project_records_one_block_witness :
    (annotate_tape ⟨some true, some [7], [3], [4]⟩ ⟨[], false⟩).1 = true ∧
    ∃ out b,
      (project (Except.ok 5) 1 2 ⟨some true, some [7], [3], [4]⟩
        ⟨[], false⟩).1 = Except.ok out ∧
      (project (Except.ok 5) 1 2 ⟨some true, some [7], [3], [4]⟩
        ⟨[], false⟩).2.tape = ([] : List Block) ++ [b] ∧
      b.output = out ∧ b.outputs = [out.block_variable] :=
  ⟨by decide, project_records_one_block 5 1 2 ⟨some true, some [7], [3], [4]⟩
    ⟨[], false⟩ (by decide)⟩

/-- C2: for every call to `project` — whether the native projection call
returns normally or raises an error — the global recording context's
suspended flag after the call equals its value immediately before the call:
the scoped suspend/resume around the native call restores recording state on
the error path as well as on normal return. -/
theorem project_restores_suspended (native : Except String Nat) (a0 a1 : Nat)
    (kw : Kwargs) (s : GlobalState) :
    (project native a0 a1 kw s).2.suspended = s.suspended := by
  cases native with
  | error e => simp [project, stop_annotating, annotate_tape]
  | ok raw =>
    simp only [project, stop_annotating, annotate_tape]
    split <;> rfl

/-- C3: for every call to `project` with `annotate=False` whose native
projection succeeds, the recorded operations of the global recording context
are unchanged (no block is appended) and the call still returns the wrapped
output object. -/
theorem project_annotate_false_no_block (raw a0 a1 : Nat) (kw : Kwargs)
    (s : GlobalState) (h : kw.annotate = some false) :
    (project (Except.ok raw) a0 a1 kw s).2.tape = s.tape ∧
    (project (Except.ok raw) a0 a1 kw s).1 =
      Except.ok (create_overloaded_object raw) := by
  simp [project, stop_annotating, annotate_tape, h]

theorem project_annotate_false_no_block_witness :
    (⟨some false, some [7], [3], [4]⟩ : Kwargs).annotate = some false ∧
    (project (Except.ok 5) 1 2 ⟨some false, some [7], [3], [4]⟩
      ⟨[], false⟩).2.tape = ([] : List Block) ∧
    (project (Except.ok 5) 1 2 ⟨some false, some [7], [3], [4]⟩
      ⟨[], false⟩).1 = Except.ok (create_overloaded_object 5) :=
  ⟨by decide, project_annotate_false_no_block 5 1 2
    ⟨some false, some [7], [3], [4]⟩ ⟨[], false⟩ (by decide)⟩

/-- C4: in both backend branches, `create_bc bc` with only a value and with
only `homogenize=True` each succeed and return a new boundary-condition
object distinct from `bc` (under the allocator invariant that the fresh
identity differs from `bc`'s), while calling with neither argument raises
the neither-given argument error and calling with both raises the both-given
argument error. -/
theorem create_bc_contract (b : Backend) (freshId : Nat) (bc : BC) (v : Int)
    (hg : Bool) (hfresh : freshId ≠ bc.id) :
    (∃ bc1, create_bc b freshId bc (some v) none = .ok bc1 ∧ bc1.id ≠ bc.id) ∧
    (∃ bc2, create_bc b freshId bc none (some true) = .ok bc2 ∧
      bc2.id ≠ bc.id) ∧
    create_bc b freshId bc none none = .error .neitherGiven ∧
    create_bc b freshId bc (some v) (some hg) = .error .bothGiven := by
  cases b
  case firedrake =>
    refine ⟨⟨⟨freshId, bc.space, some v, bc.sub_domain, bc.method, []⟩, ?_,
        hfresh⟩,
      ⟨⟨freshId, bc.space, some 0, bc.sub_domain, bc.method, []⟩, ?_,
        hfresh⟩, ?_, ?_⟩ <;>
      simp [create_bc, create_bc_firedrake, truthy]
  case dolfin =>
    refine ⟨⟨⟨freshId, bc.space, some v, 0, 0, bc.domain_args⟩, ?_, hfresh⟩,
      ⟨⟨freshId, bc.space, some 0, bc.sub_domain, bc.method,
          bc.domain_args⟩, ?_, hfresh⟩, ?_, ?_⟩ <;>
      simp [create_bc, create_bc_dolfin, truthy]

theorem create_bc_contract_witness :
    (3 ≠ (⟨0, 1, some 2, 4, 5, [6]⟩ : BC).id) ∧
    ((∃ bc1, create_bc .dolfin 3 ⟨0, 1, some 2, 4, 5, [6]⟩ (some 9) none =
        .ok bc1 ∧ bc1.id ≠ (⟨0, 1, some 2, 4, 5, [6]⟩ : BC).id) ∧
     (∃ bc2, create_bc .dolfin 3 ⟨0, 1, some 2, 4, 5, [6]⟩ none (some true) =
        .ok bc2 ∧ bc2.id ≠ (⟨0, 1, some 2, 4, 5, [6]⟩ : BC).id) ∧
     create_bc .dolfin 3 ⟨0, 1, some 2, 4, 5, [6]⟩ none none =
        .error .neitherGiven ∧
     create_bc .dolfin 3 ⟨0, 1, some 2, 4, 5, [6]⟩ (some 9) (some true) =
        .error .bothGiven) :=
  ⟨by decide, create_bc_contract .dolfin 3 ⟨0, 1, some 2, 4, 5, [6]⟩ 9 true
    (by decide)⟩

/-- C10: both branches of `create_bc` test whether `value` and `homogenize`
are `None`, not whether they are truthy: `homogenize=False` alone raises no
error and constructs a boundary condition whose value is `None`, while
`value=v` together with `homogenize=False` raises the both-given argument
error even though the homogenize flag is false. -/
theorem create_bc_checks_none_not_truthy (b : Backend) (freshId : Nat)
    (bc : BC) (v : Int) :
    (∃ bc1, create_bc b freshId bc none (some false) = .ok bc1 ∧
      bc1.value = none) ∧
    create_bc b freshId bc (some v) (some false) = .error .bothGiven := by
  cases b
  case firedrake =>
    refine ⟨⟨⟨freshId, bc.space, none, bc.sub_domain, bc.method, []⟩, ?_,
        rfl⟩, ?_⟩ <;>
      simp [create_bc, create_bc_firedrake, truthy]
  case dolfin =>
    refine ⟨⟨⟨freshId, bc.space, none, 0, 0, bc.domain_args⟩, ?_, rfl⟩,
        ?_⟩ <;>
      simp [create_bc, create_bc_dolfin, truthy]

/-- C9: `extract_subfunction` applied with the full root space — Firedrake:
a space whose `index` is `None` (no parent chain); Dolfin: a space whose
component list is empty — returns the field unchanged, in both backend
branches. -/
theorem extract_subfunction_root_identity (u : Fn) (rootId : Nat)
    (V : DlSpace) (h : V.component = []) :
    extract_subfunction_firedrake u (.root rootId) = .ok u ∧
    extract_subfunction_dolfin u V = .ok u :=
  ⟨rfl, by simp [extract_subfunction_dolfin, h, subChain]⟩

theorem extract_subfunction_root_identity_witness :
    (⟨4, 2, []⟩ : DlSpace).component = [] ∧
    (extract_subfunction_firedrake (Fn.mk 0 [1, 2] []) (.root 9) =
      .ok (Fn.mk 0 [1, 2] []) ∧
     extract_subfunction_dolfin (Fn.mk 0 [1, 2] []) ⟨4, 2, []⟩ =
      .ok (Fn.mk 0 [1, 2] [])) :=
  ⟨rfl, extract_subfunction_root_identity (Fn.mk 0 [1, 2] []) 9 ⟨4, 2, []⟩ rfl⟩

/-- C7 counterexample: in the Dolfin branch, `extract_bc_subvector` performs
no space-equality assertion.  Concretely, with a field on space `2`, a target
collapsed space of identity `1` and a bc function space of identity `2` (same
dimension, so the external `FunctionAssigner` accepts the pair), the
extracted sub-function's space differs from the target space, yet the
operation succeeds instead of failing with an assertion failure — refuting
the claim's "in either backend branch". -/
theorem extract_bc_subvector_dolfin_no_assertion :
    extract_subfunction_dolfin (Fn.mk 2 [5, 6] []) ⟨2, 2, []⟩ =
      .ok (Fn.mk 2 [5, 6] []) ∧
    (Fn.mk 2 [5, 6] []).space ≠ (⟨1, 2, []⟩ : DlSpace).id ∧
    extract_bc_subvector_dolfin (Fn.mk 2 [5, 6] []) ⟨1, 2, []⟩ ⟨2, 2, []⟩ =
      Except.ok [5, 6] :=
  ⟨rfl, by decide, rfl⟩

/-- C7 (amended): in the Firedrake branch, whenever following the boundary
condition's component indices from the field succeeds and yields a
sub-function whose space does not equal the target collapsed space,
`extract_bc_subvector` fails with an assertion failure. -/
theorem extract_bc_subvector_firedrake_assertion (value : Fn) (Vtarget : Nat)
    (idxs : List Nat) (r : Fn) (hr : subChain value idxs = .ok r)
    (hne : r.space ≠ Vtarget) :
    extract_bc_subvector_firedrake value Vtarget idxs =
      .error .assertionError := by
  simp only [extract_bc_subvector_firedrake, hr]
  rw [if_neg fun hc => hne hc.symm]

theorem extract_bc_subvector_firedrake_assertion_witness :
    subChain (Fn.mk 0 [1] [Fn.mk 3 [9] []]) [0] = .ok (Fn.mk 3 [9] []) ∧
    (Fn.mk 3 [9] []).space ≠ 7 ∧
    extract_bc_subvector_firedrake (Fn.mk 0 [1] [Fn.mk 3 [9] []]) 7 [0] =
      .error .assertionError :=
  ⟨rfl, by decide,
    extract_bc_subvector_firedrake_assertion (Fn.mk 0 [1] [Fn.mk 3 [9] []]) 7
      [0] (Fn.mk 3 [9] []) rfl (by decide)⟩

/-- C8: for every 1-form, `assemble_adjoint_value` yields an object of the
Vector type identity and never of the Function type identity, in both
backend branches: in the Firedrake branch the native assembly of a 1-form
yields a `Function` or a `Vector` and the wrapper converts a `Function` to
its vector; in the Dolfin branch the native assembly of a 1-form is itself a
`Vector`. -/
theorem assemble_adjoint_value_rank1_is_vector (r : AsmResult) (d : List Int)
    (h : (∃ d0, r = AsmResult.function d0) ∨ (∃ d0, r = AsmResult.vector d0)) :
    (isVectorType (assemble_adjoint_value_firedrake r) = true ∧
     isFunctionType (assemble_adjoint_value_firedrake r) = false) ∧
    (isVectorType (assemble_adjoint_value_dolfin_rank1 d) = true ∧
     isFunctionType (assemble_adjoint_value_dolfin_rank1 d) = false) := by
  refine ⟨?_, by simp [assemble_adjoint_value_dolfin_rank1,
    dolfin_assemble_rank1, isVectorType, isFunctionType]⟩
  rcases h with ⟨d0, rfl⟩ | ⟨d0, rfl⟩ <;>
    simp [assemble_adjoint_value_firedrake, isVectorType, isFunctionType]

theorem assemble_adjoint_value_rank1_is_vector_witness :
    ((∃ d0, AsmResult.function [1] = AsmResult.function d0) ∨
      (∃ d0, AsmResult.function [1] = AsmResult.vector d0)) ∧
    ((isVectorType (assemble_adjoint_value_firedrake (.function [1])) = true ∧
      isFunctionType (assemble_adjoint_value_firedrake (.function [1])) =
        false) ∧
     (isVectorType (assemble_adjoint_value_dolfin_rank1 [2]) = true ∧
      isFunctionType (assemble_adjoint_value_dolfin_rank1 [2]) = false)) :=
  ⟨Or.inl ⟨[1], rfl⟩,
    assemble_adjoint_value_rank1_is_vector (.function [1]) [2]
      (Or.inl ⟨[1], rfl⟩)⟩

/-- C5 counterexample: in the Firedrake branch, `gather` has no plain-array
fallback — `vec.gather()` on a plain array raises — so `gather` applied to
an already-local plain array does not return it unchanged in every backend
branch, refuting the claim's "regardless of which backend is active". -/
theorem gather_firedrake_plain_array_fails :
    gather .firedrake (.array [0]) =
      .error "AttributeError: no gather method" ∧
    gather .firedrake (.array [0]) ≠ .ok (.array [0]) :=
  ⟨rfl, by simp [gather, gather_firedrake]⟩

/-- C5 (amended): in the Dolfin branch, `gather` returns a plain
already-local array unchanged (the fallback branch), and hence is idempotent
on plain arrays: gathering twice equals gathering once. -/
theorem gather_dolfin_plain_array_idempotent (d : List Int) :
    gather .dolfin (.array d) = .ok (.array d) ∧
    gather_dolfin (gather_dolfin (.array d)) = gather_dolfin (.array d) :=
  ⟨rfl, rfl⟩

/-- C6 counterexample: in the Firedrake branch, `gather` does not recurse
over lists — `vec.gather()` on a Python list raises — so `gather` on a list
is not the elementwise mapping of `gather` in every backend branch,
refuting the claim's "regardless of which backend is active". -/
theorem gather_firedrake_list_fails :
    gather .firedrake (.pylist []) =
      .error "AttributeError: no gather method" ∧
    gather .firedrake (.pylist []) ≠ .ok (.pylist []) :=
  ⟨rfl, by simp [gather, gather_firedrake]⟩

/-- Elementwise gather over a list is `List.map` of `gather_dolfin`. -/
theorem gather_dolfin_list_eq_map (xs : List PyVal) :
    gather_dolfin_list xs = xs.map gather_dolfin := by
  induction xs with
  | nil => rfl
  | cons x xs ih => simp [gather_dolfin_list, ih]

/-- C6 (amended): in the Dolfin branch, `gather` applied to a list of
values equals the element-wise mapping of `gather` over that list. -/
theorem gather_dolfin_list_maps (xs : List PyVal) :
    gather Backend.dolfin (PyVal.pylist xs) =
      Except.ok (PyVal.pylist (xs.map gather_dolfin)) := by
  simp [gather, gather_dolfin, gather_dolfin_list_eq_map]

end FenicsAdjoint
